import Mathlib

/-!
# pg_backtrace: a shallow embedding of `pg_backtrace.c`

The module keeps a handful of file-scope variables and talks to its host
(PostgreSQL) and to the C library through a few calls.  The embedding keeps
the file-scope variables and the host variables the module reads or writes in
one record, `State`, and records every call that leaves the module as an
`Event` appended to `State.log`.
-/

namespace PgBacktrace

/-! ## Constants -/

/-- `#define MAX_BACK_TRACE_DEPTH 100`. -/
def MAX_BACK_TRACE_DEPTH : Nat := 100

/-- `#define SKIP_FRAMES 3`. -/
def SKIP_FRAMES : Nat := 3

/-! Severity levels of the host (`utils/elog.h`, PostgreSQL 14 and later, the
versions whose `ProcessUtility` hook has the `readOnlyTree` argument). -/

def DEBUG5 : Int := 10
def DEBUG4 : Int := 11
def DEBUG3 : Int := 12
def DEBUG2 : Int := 13
def DEBUG1 : Int := 14
def LOG : Int := 15
def INFO : Int := 17
def NOTICE : Int := 18
def WARNING : Int := 19
def ERROR : Int := 21
def FATAL : Int := 22
def PANIC : Int := 23

/-! Signal numbers of `<signal.h>` (Linux values; the module only needs them
to be pairwise distinct indices of `signal_handlers`). -/

def SIGINT : Nat := 2
def SIGBUS : Nat := 7
def SIGFPE : Nat := 8
def SIGSEGV : Nat := 11

/-- The four signals `_PG_init` intercepts, in the order it installs them. -/
def intercepted_signals : List Nat := [SIGSEGV, SIGBUS, SIGFPE, SIGINT]

/-! ## Data model -/

/-- Addresses of `ErrorContextCallback` objects: the module's single static
node `backtrace_callback`, or a node owned by the host. -/
inductive Addr where
  | backtrace_callback
  | host (n : Nat)
  deriving DecidableEq, Repr

/-- A pointer to an `ErrorContextCallback`; `none` is `NULL`. -/
abbrev Ptr := Option Addr

/-- Values of the `callback` member of an `ErrorContextCallback`: the module's
static function, or a function of the host. -/
inductive CallbackFn where
  | backtrace_callback_function
  | host (n : Nat)
  deriving DecidableEq, Repr

/-- `struct ErrorContextCallback` (the `arg` member is never written or read
by the module and is left out). -/
structure ErrorContextCallback where
  previous : Ptr
  callback : Option CallbackFn
  deriving DecidableEq, Repr

/-- Values of type `pqsigfunc`.  `SIG_DFL` is the null function pointer
(`(pqsigfunc) 0`), which is also what the zero-filled static array
`signal_handlers` holds before `_PG_init`. -/
inductive pqsigfunc where
  | SIG_DFL
  | SIG_IGN
  | backtrace_handler
  | host (n : Nat)
  deriving DecidableEq, Repr

/-- Values of the three hook variables, when not `NULL`: the module's own
wrapper for that extension point, or a function installed by someone else. -/
inductive HookFn where
  | wrapper
  | host (n : Nat)
  deriving DecidableEq, Repr

/-- Target of a delegated call made by a hook wrapper. -/
inductive Callee where
  | prev (f : HookFn)
  | standard
  deriving DecidableEq, Repr

/-- Arguments of `ExecutorRun`. -/
structure ExecutorRunArgs where
  queryDesc : Nat
  direction : Int
  count : Nat
  execute_once : Bool
  deriving DecidableEq, Repr

/-- Arguments of `ProcessUtility`. -/
structure ProcessUtilityArgs where
  pstmt : Nat
  queryString : Nat
  readOnlyTree : Bool
  context : Int
  params : Nat
  queryEnv : Nat
  dest : Nat
  completionTag : Nat
  deriving DecidableEq, Repr

/-- Arguments of the post-parse-analysis hook. -/
structure PostParseArgs where
  pstate : Nat
  query : Nat
  jstate : Nat
  deriving DecidableEq, Repr

/-- Calls that leave the module, in the order they are made. -/
inductive Event where
  /-- `errcontext_msg(fmt, ...)`, with the formatted line. -/
  | errcontext_msg (line : String)
  /-- Entry into `backtrace_dump_stack` (recorded so that dumps can be counted). -/
  | dump_stack
  /-- The report `elog(LOG, "Caught signal %d", sig)`. -/
  | caught_signal (sig : Nat)
  /-- A callback of the host found in the error-context chain was invoked. -/
  | context_callback (f : Option CallbackFn)
  /-- The call `signal_handlers[sig](sig)`. -/
  | signal_call (h : pqsigfunc) (sig : Nat)
  | ExecutorRun (callee : Callee) (args : ExecutorRunArgs)
  | ProcessUtility (callee : Callee) (args : ProcessUtilityArgs)
  | post_parse_analyze (callee : Callee) (args : PostParseArgs)
  deriving DecidableEq, Repr

/-- The file-scope variables of `pg_backtrace.c`, followed by the variables of
the host the module reads or writes, and the log of outgoing calls. -/
structure State where
  backtrace_level : Int
  backtrace_callback : ErrorContextCallback
  prev_executor_run_hook : Option HookFn
  prev_utility_hook : Option HookFn
  prev_post_parse_analyze_hook : Option HookFn
  inside_signal_handler : Bool
  signal_handlers : Nat → pqsigfunc
  already_printed : Bool
  /-- Host: head of the error-context chain. -/
  error_context_stack : Ptr
  /-- Host: the `ErrorContextCallback` objects it owns. -/
  host_nodes : Nat → ErrorContextCallback
  /-- Host: `elevel` of the error record `CopyErrorData` copies. -/
  edata_elevel : Int
  ExecutorRun_hook : Option HookFn
  ProcessUtility_hook : Option HookFn
  post_parse_analyze_hook : Option HookFn
  /-- Host: the handler currently installed for each signal. -/
  installed_handlers : Nat → pqsigfunc
  log : List Event

/-- What the C library's stack introspection reports at a call of
`backtrace_dump_stack`. -/
structure Platform where
  /-- Return addresses of the active frames, innermost first. -/
  frames : List Nat
  /-- The description `backtrace_symbols` renders for an address. -/
  symbol : Nat → String
  /-- Whether `backtrace_symbols` succeeds in allocating its result. -/
  symbols_ok : Bool

/-- How a function that may call `exit` ends. -/
inductive Outcome where
  | returned (s : State)
  | exited (status : Int) (s : State)

/-! ## C library and host primitives used by the dump -/

/-- `backtrace(buffer, size)`: the innermost `size` return addresses (fewer
when the stack is shallower); its result `depth` is their number. -/
def backtrace (P : Platform) (size : Nat) : List Nat :=
  P.frames.take size

/-- `backtrace_symbols(buffer, size)`: `NULL` on failure, otherwise `size`
strings, the `i`-th describing `buffer[i]`. -/
def backtrace_symbols (P : Platform) (buffer : List Nat) (size : Int) : Option (List String) :=
  if P.symbols_ok then some ((buffer.take size.toNat).map P.symbol) else none

/-- `errcontext_msg("\t%s", str)`. -/
def errcontext_msg (str : String) (s : State) : State :=
  { s with log := s.log ++ [Event.errcontext_msg ("\t" ++ str)] }

/-! ## `backtrace_dump_stack` -/

/-- The loop `for (i = 0; i < depth-SKIP_FRAMES; i++) errcontext_msg("\t%s", stack[i]);`
entered at index `i`, with `bound = depth-SKIP_FRAMES`. -/
def dump_loop (stack : List String) (bound : Int) (i : Nat) (s : State) : State :=
  if (i : Int) < bound then
    dump_loop stack bound (i + 1) (errcontext_msg (stack.getD i "") s)
  else s
termination_by (bound - i).toNat
decreasing_by omega

/-- `backtrace_dump_stack`. -/
def backtrace_dump_stack (P : Platform) (s : State) : State :=
  let s := { s with log := s.log ++ [Event.dump_stack] }
  let back_trace := backtrace P MAX_BACK_TRACE_DEPTH
  let depth : Int := back_trace.length
  let stack := backtrace_symbols P (back_trace.drop SKIP_FRAMES) (depth - SKIP_FRAMES)
  match stack with
  | some stack => dump_loop stack (depth - SKIP_FRAMES) 0 s
  | none => s

/-- The lines passed to `errcontext_msg` in a log, in order. -/
def frame_lines : List Event → List String
  | [] => []
  | Event.errcontext_msg l :: es => l :: frame_lines es
  | _ :: es => frame_lines es

/-- Number of entries into `backtrace_dump_stack` in a log. -/
def dump_count (log : List Event) : Nat :=
  log.count Event.dump_stack

/-! ## The error-context callback -/

/-- `backtrace_callback_function`.  On the normal path the scratch memory
context only serves to read `edata->elevel`; it has no other effect. -/
def backtrace_callback_function (P : Platform) (s : State) : Outcome :=
  if s.inside_signal_handler then
    if s.already_printed then
      Outcome.exited 1 s
    else
      Outcome.returned (backtrace_dump_stack P { s with already_printed := true })
  else
    let elevel := s.edata_elevel
    if elevel ≥ s.backtrace_level then
      Outcome.returned (backtrace_dump_stack P s)
    else
      Outcome.returned s

/-! ## Registration in the error-context chain -/

/-- The object an address points to. -/
def deref (s : State) : Addr → ErrorContextCallback
  | Addr.backtrace_callback => s.backtrace_callback
  | Addr.host n => s.host_nodes n

/-- The loop
`for (esp = error_context_stack; esp != NULL && esp != &backtrace_callback; esp = esp->previous);`
entered with the given `esp`: the value of `esp` when it ends, `none` when the
fuel is used up before it ends. -/
def find_esp (s : State) : Nat → Ptr → Option Ptr
  | 0, _ => none
  | _ + 1, none => some none
  | fuel + 1, some a =>
    if a = Addr.backtrace_callback then some (some a)
    else find_esp s fuel (deref s a).previous

/-- `backtrace_register_error_callback`. -/
def backtrace_register_error_callback (fuel : Nat) (s : State) : Option State :=
  match find_esp s fuel s.error_context_stack with
  | none => none
  | some esp =>
    if esp = none then
      some { s with
        backtrace_callback :=
          { callback := some CallbackFn.backtrace_callback_function,
            previous := s.error_context_stack },
        error_context_stack := some Addr.backtrace_callback }
    else
      some s

/-- Runs `backtrace_register_error_callback` `n` times in a row. -/
def register_times (fuel : Nat) : Nat → State → Option State
  | 0, s => some s
  | n + 1, s =>
    match backtrace_register_error_callback fuel s with
    | none => none
    | some s1 => register_times fuel n s1

/-- The addresses `l` are the nodes met from `p` following `previous` up to
`NULL`: the chain from `p` is finite and null-terminated. -/
def IsChain (s : State) : Ptr → List Addr → Prop
  | p, [] => p = none
  | p, a :: l => p = some a ∧ IsChain s (deref s a).previous l

/-- The `callback` members of the nodes of a chain, in order. -/
def chain_callbacks (s : State) (l : List Addr) : List (Option CallbackFn) :=
  l.map (fun a => (deref s a).callback)

/-! ## Hook wrappers -/

/-- `backtrace_executor_run_hook`. -/
def backtrace_executor_run_hook (fuel : Nat) (args : ExecutorRunArgs) (s : State) :
    Option State :=
  match backtrace_register_error_callback fuel s with
  | none => none
  | some s =>
    match s.prev_executor_run_hook with
    | some f => some { s with log := s.log ++ [Event.ExecutorRun (Callee.prev f) args] }
    | none => some { s with log := s.log ++ [Event.ExecutorRun Callee.standard args] }

/-- `backtrace_utility_hook`. -/
def backtrace_utility_hook (fuel : Nat) (args : ProcessUtilityArgs) (s : State) :
    Option State :=
  match backtrace_register_error_callback fuel s with
  | none => none
  | some s =>
    match s.prev_utility_hook with
    | some f => some { s with log := s.log ++ [Event.ProcessUtility (Callee.prev f) args] }
    | none => some { s with log := s.log ++ [Event.ProcessUtility Callee.standard args] }

/-- `backtrace_post_parse_analyze_hook`. -/
def backtrace_post_parse_analyze_hook (fuel : Nat) (args : PostParseArgs) (s : State) :
    Option State :=
  match backtrace_register_error_callback fuel s with
  | none => none
  | some s =>
    match s.prev_post_parse_analyze_hook with
    | some f => some { s with log := s.log ++ [Event.post_parse_analyze (Callee.prev f) args] }
    | none => some s

/-- The delegated calls recorded in a log, in order. -/
def delegated_calls (log : List Event) : List Event :=
  log.filter (fun e =>
    match e with
    | Event.ExecutorRun _ _ => true
    | Event.ProcessUtility _ _ => true
    | Event.post_parse_analyze _ _ => true
    | _ => false)

/-! ## Signal handler -/

/-- Modelled from the spec: the host's error reporting, which is not part of
this repository, "invokes every callback in that chain, including ours"
(§2).  This is the walk
`for (econtext = error_context_stack; econtext != NULL; econtext = econtext->previous) econtext->callback(econtext->arg);`
entered at `p`.  A callback of the host is recorded in the log and returns;
`none` when the fuel is used up before the walk ends. -/
def call_context_callbacks (P : Platform) : Nat → Ptr → State → Option Outcome
  | 0, _, _ => none
  | _ + 1, none, s => some (Outcome.returned s)
  | fuel + 1, some a, s =>
    match (deref s a).callback with
    | some CallbackFn.backtrace_callback_function =>
      match backtrace_callback_function P s with
      | Outcome.returned s1 => call_context_callbacks P fuel (deref s1 a).previous s1
      | Outcome.exited status s1 => some (Outcome.exited status s1)
    | f =>
      call_context_callbacks P fuel (deref s a).previous
        { s with log := s.log ++ [Event.context_callback f] }

/-- Modelled from the spec: the notice `elog(LOG, "Caught signal %d", sig)` of
the host's logging facility (§4.5), which engages the host's error reporting:
the callbacks of the error-context chain run, then the report is emitted and,
the level being below `ERROR`, control returns to the caller. -/
def elog_caught_signal (P : Platform) (fuel : Nat) (sig : Nat) (s : State) : Option Outcome :=
  match call_context_callbacks P fuel s.error_context_stack s with
  | some (Outcome.returned s1) =>
    some (Outcome.returned { s1 with log := s1.log ++ [Event.caught_signal sig] })
  | r => r

/-- The call `h(sig)` through a recorded handler `h`. -/
def call_signal_handler (h : pqsigfunc) (sig : Nat) (s : State) : State :=
  { s with log := s.log ++ [Event.signal_call h sig] }

/-- `backtrace_handler`.  The test `if (signal_handlers[postgres_signal_arg])`
compares the recorded handler with the null pointer, which is `SIG_DFL`. -/
def backtrace_handler (P : Platform) (fuel : Nat) (postgres_signal_arg : Nat) (s : State) :
    Option Outcome :=
  let s := { s with inside_signal_handler := true }
  match elog_caught_signal P fuel postgres_signal_arg s with
  | none => none
  | some (Outcome.exited status s) => some (Outcome.exited status s)
  | some (Outcome.returned s) =>
    let s := { s with inside_signal_handler := false }
    if s.signal_handlers postgres_signal_arg ≠ pqsigfunc.SIG_DFL then
      some (Outcome.returned
        (call_signal_handler (s.signal_handlers postgres_signal_arg) postgres_signal_arg s))
    else
      some (Outcome.returned s)

/-- The calls forwarded to previously recorded signal handlers in a log. -/
def signal_calls (log : List Event) : List Event :=
  log.filter (fun e =>
    match e with
    | Event.signal_call _ _ => true
    | _ => false)

/-! ## Configuration table -/

/-- `struct config_enum_entry` of the host (`utils/guc.h`). -/
structure config_enum_entry where
  name : String
  val : Int
  hidden : Bool

/-- `backtrace_level_options`; the terminating `{NULL, 0, false}` entry is the
end of the list. -/
def backtrace_level_options : List config_enum_entry :=
  [ ⟨"debug5", DEBUG5, false⟩,
    ⟨"debug4", DEBUG4, false⟩,
    ⟨"debug3", DEBUG3, false⟩,
    ⟨"debug2", DEBUG2, false⟩,
    ⟨"debug1", DEBUG1, false⟩,
    ⟨"debug", DEBUG2, true⟩,
    ⟨"log", LOG, false⟩,
    ⟨"info", INFO, false⟩,
    ⟨"notice", NOTICE, false⟩,
    ⟨"warning", WARNING, false⟩,
    ⟨"error", ERROR, false⟩,
    ⟨"fatal", FATAL, false⟩,
    ⟨"panic", PANIC, false⟩ ]

/-- Case-insensitive equality of two names (ASCII letters). -/
def same_name (a b : String) : Bool :=
  a.data.map Char.toLower = b.data.map Char.toLower

/-- Modelled from the spec: the host's resolution of a configuration string,
which is not part of this repository: "configuration input strings map to
levels via a fixed case-insensitive lookup table", and "unknown strings are
rejected" (§4.2).  The first entry whose name matches gives the level. -/
def config_enum_lookup_by_name : List config_enum_entry → String → Option Int
  | [], _ => none
  | e :: es, value =>
    if same_name value e.name then some e.val
    else config_enum_lookup_by_name es value

/-- Modelled from the spec: assigning the setting `pg_backtrace.level` from a
configuration string; an unknown string is rejected (`none`) and the
threshold keeps its value. -/
def set_backtrace_level (value : String) (s : State) : Option State :=
  match config_enum_lookup_by_name backtrace_level_options value with
  | some v => some { s with backtrace_level := v }
  | none => none

/-! ## Load and unload -/

/-- Modelled from the spec: the host's `pqsignal(signo, func)`, which is not
part of this repository: it "replaces the current handler" of the signal and
gives back "the previously installed handler" (§4.5). -/
def pqsignal (signo : Nat) (func : pqsigfunc) (s : State) : pqsigfunc × State :=
  (s.installed_handlers signo,
   { s with installed_handlers := Function.update s.installed_handlers signo func })

/-- Modelled from the spec: the effect on the module of the host's
`DefineCustomEnumVariable("pg_backtrace.level", ..., &backtrace_level, FATAL,
backtrace_level_options, ...)`, which is not part of this repository: the
threshold takes its default, "the most severe fatal level" (§6). -/
def DefineCustomEnumVariable (bootValue : Int) (s : State) : State :=
  { s with backtrace_level := bootValue }

/-- The assignment `signal_handlers[signo] = pqsignal(signo, backtrace_handler)`. -/
def install_handler (signo : Nat) (s : State) : State :=
  let r := pqsignal signo pqsigfunc.backtrace_handler s
  { r.2 with signal_handlers := Function.update r.2.signal_handlers signo r.1 }

/-- `_PG_init`. -/
def _PG_init (s : State) : State :=
  let s := install_handler SIGSEGV s
  let s := install_handler SIGBUS s
  let s := install_handler SIGFPE s
  let s := install_handler SIGINT s
  let s := { s with prev_executor_run_hook := s.ExecutorRun_hook }
  let s := { s with ExecutorRun_hook := some HookFn.wrapper }
  let s := { s with prev_utility_hook := s.ProcessUtility_hook }
  let s := { s with ProcessUtility_hook := some HookFn.wrapper }
  let s := { s with prev_post_parse_analyze_hook := s.post_parse_analyze_hook }
  let s := { s with post_parse_analyze_hook := some HookFn.wrapper }
  DefineCustomEnumVariable FATAL s

/-- `_PG_fini`. -/
def _PG_fini (s : State) : State :=
  let s := { s with ExecutorRun_hook := s.prev_executor_run_hook }
  let s := { s with ProcessUtility_hook := s.prev_utility_hook }
  let s := { s with post_parse_analyze_hook := s.prev_post_parse_analyze_hook }
  let s := (pqsignal SIGSEGV (s.signal_handlers SIGSEGV) s).2
  let s := (pqsignal SIGBUS (s.signal_handlers SIGBUS) s).2
  let s := (pqsignal SIGFPE (s.signal_handlers SIGFPE) s).2
  let s := (pqsignal SIGINT (s.signal_handlers SIGINT) s).2
  s

/-- Number of frame dumps one call of `backtrace_callback_function` performs. -/
def dumps_of_call (P : Platform) (s : State) : Nat :=
  match backtrace_callback_function P s with
  | Outcome.returned s1 => dump_count s1.log - dump_count s.log
  | Outcome.exited _ s1 => dump_count s1.log - dump_count s.log

/-- The state `backtrace_register_error_callback` builds when it inserts. -/
def inserted (s : State) : State :=
  { s with
    backtrace_callback :=
      { callback := some CallbackFn.backtrace_callback_function,
        previous := s.error_context_stack },
    error_context_stack := some Addr.backtrace_callback }

/-- The log entries of a run of host callbacks. -/
def host_events (fs : List (Option CallbackFn)) : List Event :=
  fs.map Event.context_callback

/-! ## Example inputs -/

/-- The file-scope variables at their C initial values, in a host with no
hook, no error-context node and the default action for every signal. -/
def initial_state : State where
  backtrace_level := FATAL
  backtrace_callback := ⟨none, none⟩
  prev_executor_run_hook := none
  prev_utility_hook := none
  prev_post_parse_analyze_hook := none
  inside_signal_handler := false
  signal_handlers := fun _ => pqsigfunc.SIG_DFL
  already_printed := false
  error_context_stack := none
  host_nodes := fun _ => ⟨none, none⟩
  edata_elevel := 0
  ExecutorRun_hook := none
  ProcessUtility_hook := none
  post_parse_analyze_hook := none
  installed_handlers := fun _ => pqsigfunc.SIG_DFL
  log := []

/-- A stack of five active frames whose symbols resolve. -/
def five_frames : Platform where
  frames := [101, 102, 103, 104, 105]
  symbol := fun a => if a = 104 then "exec_simple_query" else "PostgresMain"
  symbols_ok := true

/-- The initial state while a signal handler runs. -/
def in_signal_state : State :=
  { initial_state with inside_signal_handler := true }

/-- The initial state with the threshold at `WARNING` and an error of the
given severity being reported. -/
def reporting_state (elevel : Int) : State :=
  { initial_state with backtrace_level := WARNING, edata_elevel := elevel }

/-- A host with two error-context nodes of its own, chained `0 → 1 → NULL`;
the recorded previous handler of `SIGFPE` is a handler function of the host. -/
def host_chain_state : State :=
  { initial_state with
    signal_handlers := fun n => if n = SIGFPE then pqsigfunc.host 2 else pqsigfunc.SIG_DFL,
    error_context_stack := some (Addr.host 0),
    host_nodes := fun n =>
      if n = 0 then ⟨some (Addr.host 1), some (CallbackFn.host 7)⟩
      else ⟨none, some (CallbackFn.host 8)⟩ }

/-- The module loaded into the initial host: the recorded previous handler of
every intercepted signal is the default action. -/
def loaded_state : State :=
  _PG_init initial_state

/-- A backend whose latch was set by an earlier signal-path dump and whose
error-context chain the host has emptied since; the recorded previous handler
of `SIGINT` is a handler function of the host. -/
def latched_idle_state : State :=
  { initial_state with
    already_printed := true,
    signal_handlers := fun n => if n = SIGINT then pqsigfunc.host 1 else pqsigfunc.SIG_DFL }

/-- The state `host_chain_state` with the module's node registered. -/
def registered_state : State :=
  inserted host_chain_state

/-- The state `registered_state` after a signal-path dump set the latch. -/
def latched_registered_state : State :=
  { registered_state with already_printed := true }

/-- Arguments of an `ExecutorRun` call. -/
def sample_run_args : ExecutorRunArgs := ⟨4096, 1, 0, true⟩

/-- Arguments of a `ProcessUtility` call. -/
def sample_utility_args : ProcessUtilityArgs := ⟨4096, 8192, false, 0, 0, 0, 12288, 16384⟩

/-- Arguments of a post-parse-analysis call. -/
def sample_parse_args : PostParseArgs := ⟨4096, 8192, 0⟩

/-! ## Frame dump -/

theorem frame_lines_append (l1 l2 : List Event) :
    frame_lines (l1 ++ l2) = frame_lines l1 ++ frame_lines l2 := by
  induction l1 with
  | nil => rfl
  | cons e es ih => cases e <;> simp [frame_lines, ih]

theorem frame_lines_map_errcontext (ls : List String) :
    frame_lines (ls.map Event.errcontext_msg) = ls := by
  induction ls with
  | nil => rfl
  | cons x xs ih => simp [frame_lines, ih]

/-- The loop appends one line per string of `stack` from index `i` on, when
`stack` holds exactly `bound` strings. -/
theorem dump_loop_eq (stack : List String) (bound : Int) (k : Nat) :
    ∀ (i : Nat) (s : State), bound.toNat = stack.length → stack.length - i = k →
      dump_loop stack bound i s =
        { s with log := s.log ++
            ((stack.drop i).map (fun x => Event.errcontext_msg ("\t" ++ x))) } := by
  induction k with
  | zero =>
    intro i s hb hk
    rw [dump_loop]
    have hlt : ¬ ((i : Int) < bound) := by omega
    have hdrop : stack.drop i = [] := List.drop_eq_nil_of_le (by omega)
    simp [hlt, hdrop]
  | succ k ih =>
    intro i s hb hk
    rw [dump_loop]
    have hi : i < stack.length := by omega
    have hlt : (i : Int) < bound := by omega
    rw [if_pos hlt, ih (i + 1) _ hb (by omega)]
    have hdrop : stack.drop i = stack.getD i "" :: stack.drop (i + 1) := by
      rw [List.drop_eq_getElem_cons hi]
      simp [List.getElem?_eq_getElem hi]
    simp [errcontext_msg, hdrop]

theorem backtrace_length_le (P : Platform) (size : Nat) :
    (backtrace P size).length ≤ size := by
  simp [backtrace]

/-- The state `backtrace_dump_stack` returns, in closed form. -/
theorem backtrace_dump_stack_eq (P : Platform) (s : State) :
    backtrace_dump_stack P s =
      { s with log := s.log ++ Event.dump_stack ::
          (if P.symbols_ok then
            ((backtrace P MAX_BACK_TRACE_DEPTH).drop SKIP_FRAMES).map
              (fun a => Event.errcontext_msg ("\t" ++ P.symbol a))
           else []) } := by
  unfold backtrace_dump_stack backtrace_symbols
  cases hok : P.symbols_ok with
  | false => simp
  | true =>
    simp only [if_true]
    rw [dump_loop_eq _ _ _ 0 _ _ rfl]
    · have htake : List.take ((↑(backtrace P MAX_BACK_TRACE_DEPTH).length : Int) - ↑SKIP_FRAMES).toNat
          (List.drop SKIP_FRAMES (backtrace P MAX_BACK_TRACE_DEPTH))
          = List.drop SKIP_FRAMES (backtrace P MAX_BACK_TRACE_DEPTH) := by
        apply List.take_of_length_le
        simp only [List.length_drop]
        omega
      simp [htake, List.map_map, Function.comp_def]
    · simp only [List.length_map, List.length_take, List.length_drop]
      omega

theorem dump_count_append (l1 l2 : List Event) :
    dump_count (l1 ++ l2) = dump_count l1 + dump_count l2 := by
  simp [dump_count]

theorem dump_count_map_errcontext (ls : List String) :
    dump_count (ls.map Event.errcontext_msg) = 0 := by
  induction ls with
  | nil => rfl
  | cons x xs ih =>
    simp only [dump_count] at ih
    simp [dump_count, ih]

/-- One call of `backtrace_dump_stack` is counted once. -/
theorem dump_count_dump_stack (P : Platform) (s : State) :
    dump_count (backtrace_dump_stack P s).log = dump_count s.log + 1 := by
  rw [backtrace_dump_stack_eq]
  cases hok : P.symbols_ok with
  | false => simp [dump_count]
  | true =>
    have h := dump_count_map_errcontext
      (((backtrace P MAX_BACK_TRACE_DEPTH).drop SKIP_FRAMES).map (fun a => "\t" ++ P.symbol a))
    simp only [dump_count, List.map_map, Function.comp_def] at h
    simp only [if_true, dump_count, List.count_append, List.count_cons, h]
    simp

/-- The frame lines one call of `backtrace_dump_stack` adds. -/
theorem frame_lines_dump_stack (P : Platform) (s : State) :
    frame_lines (backtrace_dump_stack P s).log =
      frame_lines s.log ++
        (if P.symbols_ok then
          ((backtrace P MAX_BACK_TRACE_DEPTH).drop SKIP_FRAMES).map (fun a => "\t" ++ P.symbol a)
         else []) := by
  rw [backtrace_dump_stack_eq]
  cases hok : P.symbols_ok with
  | false => simp [frame_lines_append, frame_lines]
  | true =>
    have h := frame_lines_map_errcontext
      (((backtrace P MAX_BACK_TRACE_DEPTH).drop SKIP_FRAMES).map (fun a => "\t" ++ P.symbol a))
    simp only [List.map_map, Function.comp_def] at h
    simp only [if_true, frame_lines_append, frame_lines, h]

/-- C9: whatever the stack, `backtrace` captures a depth `d` of at most 100
frames, and `backtrace_dump_stack` emits, when symbol resolution succeeds,
exactly one line for each captured frame of index 3 to `d - 1`, in order
(so `d - 3` lines, none when `d ≤ 3`, never one of the 3 innermost frames),
and no line when symbol resolution fails; at most 97 lines in all cases. -/
theorem C9_dump_stack_frames (P : Platform) (s : State) :
    (backtrace P MAX_BACK_TRACE_DEPTH).length ≤ 100 ∧
    (P.symbols_ok = true →
      frame_lines (backtrace_dump_stack P s).log =
        frame_lines s.log ++
          ((backtrace P MAX_BACK_TRACE_DEPTH).drop 3).map (fun a => "\t" ++ P.symbol a)) ∧
    (P.symbols_ok = false →
      frame_lines (backtrace_dump_stack P s).log = frame_lines s.log) ∧
    (frame_lines (backtrace_dump_stack P s).log).length ≤ (frame_lines s.log).length + 97 ∧
    ((backtrace P MAX_BACK_TRACE_DEPTH).length ≤ 3 →
      frame_lines (backtrace_dump_stack P s).log = frame_lines s.log) ∧
    (P.symbols_ok = true →
      (frame_lines (backtrace_dump_stack P s).log).length =
        (frame_lines s.log).length + ((backtrace P MAX_BACK_TRACE_DEPTH).length - 3)) := by
  have hlen : (backtrace P MAX_BACK_TRACE_DEPTH).length ≤ 100 :=
    backtrace_length_le P MAX_BACK_TRACE_DEPTH
  have hfl := frame_lines_dump_stack P s
  refine ⟨hlen, ?_, ?_, ?_, ?_, ?_⟩
  · intro hok
    rw [hfl, hok]
    rfl
  · intro hok
    rw [hfl, hok]
    simp
  · rw [hfl]
    cases hok : P.symbols_ok with
    | false => simp
    | true =>
      simp only [if_true, List.length_append, List.length_map, List.length_drop, SKIP_FRAMES]
      omega
  · intro hd
    rw [hfl]
    have hdrop : (backtrace P MAX_BACK_TRACE_DEPTH).drop SKIP_FRAMES = [] :=
      List.drop_eq_nil_of_le hd
    simp [hdrop]
  · intro hok
    rw [hfl, hok]
    simp [SKIP_FRAMES]

/-- Witness of C9 on a stack of five frames: the two frames of index 3 and 4
are the lines emitted. -/
theorem C9_dump_stack_frames_witness :
    five_frames.symbols_ok = true ∧
    frame_lines (backtrace_dump_stack five_frames initial_state).log =
      ["\texec_simple_query", "\tPostgresMain"] :=
  ⟨rfl, by
    rw [(C9_dump_stack_frames five_frames initial_state).2.1 rfl]
    decide⟩

/-! ## The callback -/

/-- C2: on the signal path (`inside_signal_handler` true), a call made with
the latch unset returns after setting `already_printed` and running the frame
dump exactly once; a call made with `already_printed` set ends the process
with `exit(1)`, a non-zero status, with nothing emitted and no dump. -/
theorem C2_signal_path_latch (P : Platform) (s : State)
    (h : s.inside_signal_handler = true) :
    (s.already_printed = false →
      backtrace_callback_function P s =
          Outcome.returned (backtrace_dump_stack P { s with already_printed := true }) ∧
        (backtrace_dump_stack P { s with already_printed := true }).already_printed = true ∧
        dumps_of_call P s = 1 ∧
        ∃ lines, frame_lines (backtrace_dump_stack P { s with already_printed := true }).log =
          frame_lines s.log ++ lines) ∧
    (s.already_printed = true →
      backtrace_callback_function P s = Outcome.exited 1 s ∧ (1 : Int) ≠ 0 ∧
        dumps_of_call P s = 0) := by
  constructor
  · intro hp
    have hcall : backtrace_callback_function P s =
        Outcome.returned (backtrace_dump_stack P { s with already_printed := true }) := by
      simp [backtrace_callback_function, h, hp]
    refine ⟨hcall, ?_, ?_, ?_⟩
    · rw [backtrace_dump_stack_eq]
    · simp [dumps_of_call, hcall, dump_count_dump_stack]
    · exact ⟨_, frame_lines_dump_stack P _⟩
  · intro hp
    have hcall : backtrace_callback_function P s = Outcome.exited 1 s := by
      simp [backtrace_callback_function, h, hp]
    exact ⟨hcall, by decide, by simp [dumps_of_call, hcall]⟩

/-- Witness of C2: from the initial latch state the first signal-path call
sets the latch. -/
theorem C2_signal_path_latch_witness :
    in_signal_state.inside_signal_handler = true ∧
    in_signal_state.already_printed = false ∧
    (backtrace_dump_stack five_frames
      { in_signal_state with already_printed := true }).already_printed = true :=
  ⟨rfl, rfl, ((C2_signal_path_latch five_frames in_signal_state rfl).1 rfl).2.1⟩

/-- C3: on the normal path (`inside_signal_handler` false) the callback
returns, and it runs the frame dump (once) if and only if the severity of the
error being reported is at least `backtrace_level`; hence lowering the
threshold keeps every dump; under the threshold `WARNING`, a `NOTICE` adds no
frame line and an `ERROR` runs the dump. -/
theorem C3_normal_path_gate (P : Platform) (s : State)
    (h : s.inside_signal_handler = false) :
    (s.edata_elevel ≥ s.backtrace_level →
      backtrace_callback_function P s = Outcome.returned (backtrace_dump_stack P s)) ∧
    (¬ s.edata_elevel ≥ s.backtrace_level →
      backtrace_callback_function P s = Outcome.returned s) ∧
    (dumps_of_call P s = 1 ↔ s.edata_elevel ≥ s.backtrace_level) ∧
    (∀ t1 t2 : Int, t1 ≤ t2 →
      dumps_of_call P { s with backtrace_level := t2 } = 1 →
      dumps_of_call P { s with backtrace_level := t1 } = 1) ∧
    (s.backtrace_level = WARNING → s.edata_elevel = NOTICE →
      backtrace_callback_function P s = Outcome.returned s) ∧
    (s.backtrace_level = WARNING → s.edata_elevel = ERROR →
      backtrace_callback_function P s = Outcome.returned (backtrace_dump_stack P s)) := by
  have hyes : ∀ s : State, s.inside_signal_handler = false →
      s.edata_elevel ≥ s.backtrace_level →
      backtrace_callback_function P s = Outcome.returned (backtrace_dump_stack P s) := by
    intro s h hge
    simp [backtrace_callback_function, h, hge]
  have hno : ∀ s : State, s.inside_signal_handler = false →
      ¬ s.edata_elevel ≥ s.backtrace_level →
      backtrace_callback_function P s = Outcome.returned s := by
    intro s h hge
    have hlt : ¬ s.backtrace_level ≤ s.edata_elevel := hge
    simp [backtrace_callback_function, h, hlt]
  have hiff : ∀ s : State, s.inside_signal_handler = false →
      (dumps_of_call P s = 1 ↔ s.edata_elevel ≥ s.backtrace_level) := by
    intro s h
    by_cases hge : s.edata_elevel ≥ s.backtrace_level
    · simp [dumps_of_call, hyes s h hge, dump_count_dump_stack, hge]
    · simp [dumps_of_call, hno s h hge, hge]
  refine ⟨hyes s h, hno s h, hiff s h, ?_, ?_, ?_⟩
  · intro t1 t2 ht h2
    have h2' := (hiff { s with backtrace_level := t2 } h).1 h2
    apply (hiff { s with backtrace_level := t1 } h).2
    simp only [ge_iff_le] at h2' ⊢
    omega
  · intro ht he
    apply hno s h
    rw [ht, he]
    decide
  · intro ht he
    apply hyes s h
    rw [ht, he]
    decide

/-- Witness of C3: threshold `WARNING`, an `ERROR` on a stack of five frames
emits the two outer frames, a `NOTICE` emits nothing. -/
theorem C3_normal_path_gate_witness :
    (reporting_state ERROR).inside_signal_handler = false ∧
    backtrace_callback_function five_frames (reporting_state ERROR) =
      Outcome.returned (backtrace_dump_stack five_frames (reporting_state ERROR)) ∧
    backtrace_callback_function five_frames (reporting_state NOTICE) =
      Outcome.returned (reporting_state NOTICE) :=
  ⟨rfl, (C3_normal_path_gate five_frames (reporting_state ERROR) rfl).2.2.2.2.2 rfl rfl,
    (C3_normal_path_gate five_frames (reporting_state NOTICE) rfl).2.2.2.2.1 rfl rfl⟩

/-! ## Registration -/

/-- A chain only depends on the nodes it goes through. -/
theorem IsChain_congr (s1 s2 : State) (l : List Addr) :
    ∀ p : Ptr, (∀ a ∈ l, deref s1 a = deref s2 a) → IsChain s1 p l → IsChain s2 p l := by
  induction l with
  | nil => intro p _ h; exact h
  | cons a l ih =>
    intro p hd h
    refine ⟨h.1, ?_⟩
    rw [← hd a (List.mem_cons_self a l)]
    exact ih _ (fun b hb => hd b (List.mem_cons_of_mem a hb)) h.2

/-- From a given pointer there is at most one chain. -/
theorem IsChain_unique (s : State) (l1 : List Addr) :
    ∀ (l2 : List Addr) (p : Ptr), IsChain s p l1 → IsChain s p l2 → l1 = l2 := by
  induction l1 with
  | nil =>
    intro l2 p h1 h2
    cases l2 with
    | nil => rfl
    | cons b l2 =>
      have hp : p = none := h1
      have hq : p = some b := h2.1
      rw [hp] at hq
      cases hq
  | cons a l1 ih =>
    intro l2 p h1 h2
    cases l2 with
    | nil =>
      have hp : p = none := h2
      have hq : p = some a := h1.1
      rw [hp] at hq
      cases hq
    | cons b l2 =>
      have hab : a = b := by
        have hq := h1.1
        rw [h2.1] at hq
        exact (Option.some.inj hq).symm
      subst hab
      rw [ih l2 _ h1.2 h2.2]

/-- The part of a chain that starts at one of its nodes is the chain from
that node. -/
theorem IsChain_suffix (s : State) (l1 : List Addr) (a : Addr) (l2 : List Addr) :
    ∀ p : Ptr, IsChain s p (l1 ++ a :: l2) → IsChain s (some a) (a :: l2) := by
  induction l1 with
  | nil =>
    intro p h
    exact ⟨rfl, h.2⟩
  | cons b l1 ih =>
    intro p h
    exact ih _ h.2

/-- A finite, null-terminated chain visits no node twice. -/
theorem IsChain_nodup (s : State) (l : List Addr) :
    ∀ p : Ptr, IsChain s p l → l.Nodup := by
  induction l with
  | nil => intro _ _; exact List.nodup_nil
  | cons a l ih =>
    intro p h
    refine List.nodup_cons.mpr ⟨?_, ih _ h.2⟩
    intro hmem
    obtain ⟨l1, l2, hl⟩ := List.append_of_mem hmem
    have hsuf : IsChain s (some a) (a :: l2) := by
      have h2 := h.2
      rw [hl] at h2
      exact IsChain_suffix s l1 a l2 _ h2
    have hfull : IsChain s (some a) (a :: l) := ⟨rfl, h.2⟩
    have heq := IsChain_unique s _ _ _ hsuf hfull
    have hlen := congrArg List.length heq
    rw [hl] at hlen
    simp at hlen
    omega

/-- On a chain the search loop ends, at the module's node when the chain
holds it and at `NULL` otherwise. -/
theorem find_esp_chain (s : State) (l : List Addr) :
    ∀ (p : Ptr) (fuel : Nat), IsChain s p l → l.length < fuel →
      find_esp s fuel p =
        some (if Addr.backtrace_callback ∈ l then some Addr.backtrace_callback else none) := by
  induction l with
  | nil =>
    intro p fuel h hf
    have hp : p = none := h
    subst hp
    cases fuel with
    | zero => omega
    | succ fuel => simp [find_esp]
  | cons a l ih =>
    intro p fuel h hf
    have hp : p = some a := h.1
    subst hp
    cases fuel with
    | zero => omega
    | succ fuel =>
      by_cases ha : a = Addr.backtrace_callback
      · simp [find_esp, ha]
      · have hf2 : l.length < fuel := by simpa using hf
        have hne : ¬ Addr.backtrace_callback = a := fun h => ha h.symm
        simp [find_esp, ha, ih _ fuel h.2 hf2, hne]

theorem register_present (s : State) (l : List Addr) (fuel : Nat)
    (hchain : IsChain s s.error_context_stack l) (hf : l.length < fuel)
    (hmem : Addr.backtrace_callback ∈ l) :
    backtrace_register_error_callback fuel s = some s := by
  simp [backtrace_register_error_callback, find_esp_chain s l _ fuel hchain hf, hmem]

theorem register_absent (s : State) (l : List Addr) (fuel : Nat)
    (hchain : IsChain s s.error_context_stack l) (hf : l.length < fuel)
    (hmem : Addr.backtrace_callback ∉ l) :
    backtrace_register_error_callback fuel s = some (inserted s) ∧
      IsChain (inserted s) (inserted s).error_context_stack (Addr.backtrace_callback :: l) := by
  constructor
  · simp [backtrace_register_error_callback, find_esp_chain s l _ fuel hchain hf, hmem, inserted]
  · refine ⟨rfl, ?_⟩
    have hprev : (deref (inserted s) Addr.backtrace_callback).previous = s.error_context_stack :=
      rfl
    rw [hprev]
    apply IsChain_congr s (inserted s) l _ _ hchain
    intro a ha
    cases a with
    | backtrace_callback => exact absurd ha hmem
    | host n => rfl

theorem register_times_fixed (fuel : Nat) (s : State)
    (h : backtrace_register_error_callback fuel s = some s) :
    ∀ n : Nat, register_times fuel n s = some s := by
  intro n
  induction n with
  | zero => rfl
  | succ n ih => simp [register_times, h, ih]

/-- C1: on a finite, null-terminated error-context chain, whether or not it
already holds the module's node, `n ≥ 1` calls of
`backtrace_register_error_callback` in a row all return and leave a chain
that holds `backtrace_callback` exactly once; the state after `n` calls is the
state after the first call, a further call changes nothing (head and links
included), and when the node was already in the chain no call changes
anything. -/
theorem C1_register_exactly_once (s : State) (l : List Addr) (fuel n : Nat)
    (hchain : IsChain s s.error_context_stack l) (hfuel : l.length + 1 < fuel)
    (hn : 1 ≤ n) :
    ∃ (s1 : State) (l1 : List Addr),
      register_times fuel n s = some s1 ∧
      IsChain s1 s1.error_context_stack l1 ∧
      l1.count Addr.backtrace_callback = 1 ∧
      backtrace_register_error_callback fuel s = some s1 ∧
      backtrace_register_error_callback fuel s1 = some s1 ∧
      (Addr.backtrace_callback ∈ l → s1 = s ∧ l1 = l) ∧
      (Addr.backtrace_callback ∉ l →
        s1.error_context_stack = some Addr.backtrace_callback ∧
        s1.backtrace_callback.previous = s.error_context_stack ∧
        s1.host_nodes = s.host_nodes ∧ l1 = Addr.backtrace_callback :: l) := by
  obtain ⟨m, rfl⟩ : ∃ m, n = m + 1 := ⟨n - 1, by omega⟩
  by_cases hmem : Addr.backtrace_callback ∈ l
  · have hreg := register_present s l fuel hchain (by omega) hmem
    refine ⟨s, l, register_times_fixed fuel s hreg _, hchain, ?_, hreg, hreg, ?_, ?_⟩
    · exact List.count_eq_one_of_mem (IsChain_nodup s l _ hchain) hmem
    · intro _; exact ⟨rfl, rfl⟩
    · intro h; exact absurd hmem h
  · obtain ⟨hreg, hchain1⟩ := register_absent s l fuel hchain (by omega) hmem
    have hmem1 : Addr.backtrace_callback ∈ Addr.backtrace_callback :: l :=
      List.mem_cons_self _ _
    have hreg1 := register_present (inserted s) _ fuel hchain1 (by simpa using hfuel) hmem1
    refine ⟨inserted s, Addr.backtrace_callback :: l, ?_, hchain1, ?_, hreg, hreg1, ?_, ?_⟩
    · simp [register_times, hreg, register_times_fixed fuel _ hreg1 m]
    · exact List.count_eq_one_of_mem (IsChain_nodup _ _ _ hchain1) hmem1
    · intro h; exact absurd h hmem
    · intro _; exact ⟨rfl, rfl, rfl, rfl⟩

/-- Witness of C1: three calls in a row on a host chain of two nodes leave a
chain that holds the module's node once. -/
theorem C1_register_exactly_once_witness :
    IsChain host_chain_state host_chain_state.error_context_stack [Addr.host 0, Addr.host 1] ∧
    ∃ (s1 : State) (l1 : List Addr),
      register_times 4 3 host_chain_state = some s1 ∧
      IsChain s1 s1.error_context_stack l1 ∧
      l1.count Addr.backtrace_callback = 1 :=
  ⟨⟨rfl, rfl, rfl⟩, by
    obtain ⟨s1, l1, h1, h2, h3, _⟩ := C1_register_exactly_once host_chain_state
      [Addr.host 0, Addr.host 1] 4 3 ⟨rfl, rfl, rfl⟩ (by decide) (by decide)
    exact ⟨s1, l1, h1, h2, h3⟩⟩

/-! ## Signal handler -/

theorem frame_lines_host_events (fs : List (Option CallbackFn)) :
    frame_lines (host_events fs) = [] := by
  induction fs with
  | nil => rfl
  | cons f fs ih =>
    simp only [host_events, List.map_cons, frame_lines] at ih ⊢
    exact ih

theorem dump_count_host_events (fs : List (Option CallbackFn)) :
    dump_count (host_events fs) = 0 := by
  induction fs with
  | nil => rfl
  | cons f fs ih =>
    simp only [dump_count, host_events] at ih
    simp [dump_count, host_events, ih]

theorem signal_calls_host_events (fs : List (Option CallbackFn)) :
    signal_calls (host_events fs) = [] := by
  induction fs with
  | nil => rfl
  | cons f fs ih =>
    simp only [signal_calls, host_events] at ih
    simp [signal_calls, host_events, ih]

theorem signal_calls_append (l1 l2 : List Event) :
    signal_calls (l1 ++ l2) = signal_calls l1 ++ signal_calls l2 := by
  simp [signal_calls]

/-- The walk over a chain that holds no node with the module's callback:
every node is a host callback, and the walk returns. -/
theorem walk_without (P : Platform) (l : List Addr) :
    ∀ (p : Ptr) (s : State) (fuel : Nat), IsChain s p l → l.length < fuel →
      some CallbackFn.backtrace_callback_function ∉ chain_callbacks s l →
      call_context_callbacks P fuel p s =
        some (Outcome.returned { s with log := s.log ++ host_events (chain_callbacks s l) }) := by
  induction l with
  | nil =>
    intro p s fuel h hf _
    have hp : p = none := h
    subst hp
    cases fuel with
    | zero => omega
    | succ fuel => simp [call_context_callbacks, chain_callbacks, host_events]
  | cons a l ih =>
    intro p s fuel h hf hno
    have hp : p = some a := h.1
    subst hp
    cases fuel with
    | zero => omega
    | succ fuel =>
      have hf2 : l.length < fuel := by simpa using hf
      have hhead : (deref s a).callback ≠ some CallbackFn.backtrace_callback_function := by
        intro hc
        apply hno
        simp [chain_callbacks, hc]
      have htail : some CallbackFn.backtrace_callback_function ∉ chain_callbacks s l := by
        intro hc
        apply hno
        simp only [chain_callbacks, List.map_cons, List.mem_cons]
        exact Or.inr hc
      have hstep := ih (deref s a).previous
        { s with log := s.log ++ [Event.context_callback (deref s a).callback] } fuel
        (IsChain_congr s _ l _ (fun b _ => by cases b <;> rfl) h.2) hf2 htail
      have hcbs : chain_callbacks
          { s with log := s.log ++ [Event.context_callback (deref s a).callback] } l
          = chain_callbacks s l := rfl
      rw [hcbs] at hstep
      have hwalk : call_context_callbacks P (fuel + 1) (some a) s =
          call_context_callbacks P fuel (deref s a).previous
            { s with log := s.log ++ [Event.context_callback (deref s a).callback] } := by
        cases hcb : (deref s a).callback with
        | none => simp [call_context_callbacks, hcb]
        | some f =>
          cases f with
          | backtrace_callback_function => exact absurd hcb hhead
          | host n => simp [call_context_callbacks, hcb]
      rw [hwalk, hstep]
      simp [chain_callbacks, host_events]

/-- One step of the walk at a node that holds a host callback. -/
theorem walk_host_step (P : Platform) (fuel : Nat) (a : Addr) (s : State)
    (hhead : (deref s a).callback ≠ some CallbackFn.backtrace_callback_function) :
    call_context_callbacks P (fuel + 1) (some a) s =
      call_context_callbacks P fuel (deref s a).previous
        { s with log := s.log ++ [Event.context_callback (deref s a).callback] } := by
  cases hcb : (deref s a).callback with
  | none => simp [call_context_callbacks, hcb]
  | some f =>
    cases f with
    | backtrace_callback_function => exact absurd hcb hhead
    | host n => simp [call_context_callbacks, hcb]

/-- The walk with the latch set, on a chain that holds the module's callback:
the host callbacks in front of it run, then the process exits with status 1. -/
theorem walk_latched (P : Platform) (l : List Addr) :
    ∀ (p : Ptr) (s : State) (fuel : Nat), IsChain s p l → l.length < fuel →
      s.inside_signal_handler = true → s.already_printed = true →
      some CallbackFn.backtrace_callback_function ∈ chain_callbacks s l →
      ∃ fs, call_context_callbacks P fuel p s =
        some (Outcome.exited 1 { s with log := s.log ++ host_events fs }) := by
  induction l with
  | nil =>
    intro p s fuel _ _ _ _ hmem
    simp [chain_callbacks] at hmem
  | cons a l ih =>
    intro p s fuel h hf hin hap hmem
    have hp : p = some a := h.1
    subst hp
    cases fuel with
    | zero => omega
    | succ fuel =>
      have hf2 : l.length < fuel := by simpa using hf
      by_cases hhead : (deref s a).callback = some CallbackFn.backtrace_callback_function
      · refine ⟨[], ?_⟩
        have hcall : backtrace_callback_function P s = Outcome.exited 1 s := by
          simp [backtrace_callback_function, hin, hap]
        simp only [call_context_callbacks, hhead, hcall, host_events, List.map_nil,
          List.append_nil]
      · have htail : some CallbackFn.backtrace_callback_function ∈ chain_callbacks s l := by
          simp only [chain_callbacks, List.map_cons, List.mem_cons] at hmem
          rcases hmem with hm | hm
          · exact absurd hm.symm hhead
          · exact hm
        obtain ⟨fs, hfs⟩ := ih (deref s a).previous
          { s with log := s.log ++ [Event.context_callback (deref s a).callback] } fuel
          (IsChain_congr s _ l _ (fun b _ => by cases b <;> rfl) h.2) hf2 hin hap htail
        refine ⟨(deref s a).callback :: fs, ?_⟩
        rw [walk_host_step P fuel a s hhead, hfs]
        simp [host_events]

/-- The walk with the latch unset, on a chain that holds the module's
callback exactly once: the host callbacks in front of it run, the latch is
set and the dump runs, then the remaining host callbacks run, and the walk
returns. -/
theorem walk_once (P : Platform) (l : List Addr) :
    ∀ (p : Ptr) (s : State) (fuel : Nat), IsChain s p l → l.length < fuel →
      s.inside_signal_handler = true → s.already_printed = false →
      (chain_callbacks s l).count (some CallbackFn.backtrace_callback_function) = 1 →
      ∃ fs1 fs2, call_context_callbacks P fuel p s =
        some (Outcome.returned
          { backtrace_dump_stack P
              { s with already_printed := true, log := s.log ++ host_events fs1 } with
            log := (backtrace_dump_stack P
              { s with already_printed := true, log := s.log ++ host_events fs1 }).log ++
                host_events fs2 }) := by
  induction l with
  | nil =>
    intro p s fuel _ _ _ _ hcount
    simp [chain_callbacks] at hcount
  | cons a l ih =>
    intro p s fuel h hf hin hap hcount
    have hp : p = some a := h.1
    subst hp
    cases fuel with
    | zero => omega
    | succ fuel =>
      have hf2 : l.length < fuel := by simpa using hf
      by_cases hhead : (deref s a).callback = some CallbackFn.backtrace_callback_function
      · have htail : some CallbackFn.backtrace_callback_function ∉ chain_callbacks s l := by
          intro hm
          have hpos := List.count_pos_iff.mpr hm
          simp only [chain_callbacks, List.map_cons, hhead, List.count_cons_self] at hcount hpos
          omega
        have hcall : backtrace_callback_function P s =
            Outcome.returned (backtrace_dump_stack P { s with already_printed := true }) := by
          simp [backtrace_callback_function, hin, hap]
        have hrest := walk_without P l (deref s a).previous
          (backtrace_dump_stack P { s with already_printed := true }) fuel
          (IsChain_congr s _ l _
            (fun b _ => by rw [backtrace_dump_stack_eq]; cases b <;> rfl) h.2) hf2
          (by rw [backtrace_dump_stack_eq]; exact htail)
        refine ⟨[], chain_callbacks (backtrace_dump_stack P { s with already_printed := true }) l,
          ?_⟩
        have hderef : (deref (backtrace_dump_stack P { s with already_printed := true }) a).previous
            = (deref s a).previous := by
          rw [backtrace_dump_stack_eq]; cases a <;> rfl
        simp only [call_context_callbacks, hhead, hcall, hderef, hrest]
        simp [host_events]
      · have hcount2 :
            (chain_callbacks s l).count (some CallbackFn.backtrace_callback_function) = 1 := by
          simp only [chain_callbacks, List.map_cons] at hcount
          rw [List.count_cons_of_ne (fun h => hhead h.symm)] at hcount
          exact hcount
        obtain ⟨fs1, fs2, hfs⟩ := ih (deref s a).previous
          { s with log := s.log ++ [Event.context_callback (deref s a).callback] } fuel
          (IsChain_congr s _ l _ (fun b _ => by cases b <;> rfl) h.2) hf2 hin hap hcount2
        refine ⟨(deref s a).callback :: fs1, fs2, ?_⟩
        rw [walk_host_step P fuel a s hhead, hfs]
        simp [host_events]

/-- The callback changes the latch and the log only. -/
theorem callback_preserves (P : Platform) (s s1 : State)
    (h : backtrace_callback_function P s = Outcome.returned s1) :
    s1 = { s with already_printed := s1.already_printed, log := s1.log } := by
  by_cases hin : s.inside_signal_handler = true
  · by_cases hap : s.already_printed = true
    · have hcall : backtrace_callback_function P s = Outcome.exited 1 s := by
        simp [backtrace_callback_function, hin, hap]
      rw [hcall] at h
      cases h
    · have hcall : backtrace_callback_function P s =
          Outcome.returned (backtrace_dump_stack P { s with already_printed := true }) := by
        simp [backtrace_callback_function, hin, hap]
      rw [hcall] at h
      cases h
      rw [backtrace_dump_stack_eq]
  · by_cases hge : s.edata_elevel ≥ s.backtrace_level
    · have hcall : backtrace_callback_function P s =
          Outcome.returned (backtrace_dump_stack P s) := by
        simp [backtrace_callback_function, hin, hge]
      rw [hcall] at h
      cases h
      rw [backtrace_dump_stack_eq]
    · have hlt : ¬ s.backtrace_level ≤ s.edata_elevel := hge
      have hcall : backtrace_callback_function P s = Outcome.returned s := by
        simp [backtrace_callback_function, hin, hlt]
      rw [hcall] at h
      cases h
      rfl

/-- The walk over the error-context chain changes the latch and the log only. -/
theorem walk_preserves (P : Platform) :
    ∀ (fuel : Nat) (p : Ptr) (s s1 : State),
      call_context_callbacks P fuel p s = some (Outcome.returned s1) →
      s1 = { s with already_printed := s1.already_printed, log := s1.log } := by
  intro fuel
  induction fuel with
  | zero =>
    intro p s s1 h
    simp [call_context_callbacks] at h
  | succ fuel ih =>
    intro p s s1 h
    cases p with
    | none =>
      simp only [call_context_callbacks, Option.some.injEq, Outcome.returned.injEq] at h
      subst h
      rfl
    | some a =>
      by_cases hhead : (deref s a).callback = some CallbackFn.backtrace_callback_function
      · simp only [call_context_callbacks, hhead] at h
        cases hcall : backtrace_callback_function P s with
        | exited status s2 =>
          rw [hcall] at h
          simp at h
        | returned s2 =>
          rw [hcall] at h
          have h1 := callback_preserves P s s2 hcall
          have h2 := ih _ _ _ h
          rw [h2, h1]
      · rw [walk_host_step P fuel a s hhead] at h
        have h2 := ih _ _ _ h
        rw [h2]

/-- C4 (as stated, refuted): with the default action recorded for `SIGSEGV`,
as `_PG_init` records it in a host that had no handler of its own, the wrapper
returns from the notice step, resets `inside_signal_handler` and returns
without forwarding anything. -/
theorem C4_default_action_not_forwarded :
    loaded_state.signal_handlers SIGSEGV = pqsigfunc.SIG_DFL ∧
    ∃ s1, backtrace_handler five_frames 1 SIGSEGV loaded_state = some (Outcome.returned s1) ∧
      s1.inside_signal_handler = false ∧
      s1.log = [Event.caught_signal SIGSEGV] ∧
      signal_calls s1.log = [] :=
  ⟨rfl, _, rfl, rfl, rfl, rfl⟩

/-- C4 (amended): for every signal, when the wrapper `backtrace_handler`
returns from the notice step, it sets `inside_signal_handler` back to false
and then, if the handler recorded for the signal is a handler function,
calls it exactly once with the same signal number as its last action; if the
recorded value is the default action `SIG_DFL` (the null pointer), it
forwards nothing and returns. -/
theorem C4_handler_forwards (P : Platform) (fuel sig : Nat) (s s1 : State)
    (hnotice : elog_caught_signal P fuel sig { s with inside_signal_handler := true } =
      some (Outcome.returned s1)) :
    (∀ n, s.signal_handlers sig = pqsigfunc.host n →
      backtrace_handler P fuel sig s =
        some (Outcome.returned
          (call_signal_handler (pqsigfunc.host n) sig
            { s1 with inside_signal_handler := false })) ∧
      signal_calls
          (call_signal_handler (pqsigfunc.host n) sig
            { s1 with inside_signal_handler := false }).log =
        signal_calls s1.log ++ [Event.signal_call (pqsigfunc.host n) sig]) ∧
    (s.signal_handlers sig = pqsigfunc.SIG_DFL →
      backtrace_handler P fuel sig s =
        some (Outcome.returned { s1 with inside_signal_handler := false })) := by
  have hsame : s1.signal_handlers = s.signal_handlers := by
    unfold elog_caught_signal at hnotice
    cases hwalk : call_context_callbacks P fuel
        ({ s with inside_signal_handler := true } : State).error_context_stack
        { s with inside_signal_handler := true } with
    | none => rw [hwalk] at hnotice; simp at hnotice
    | some o =>
      cases o with
      | exited status s2 => rw [hwalk] at hnotice; simp at hnotice
      | returned s2 =>
        rw [hwalk] at hnotice
        simp only [Option.some.injEq, Outcome.returned.injEq] at hnotice
        have h2 := walk_preserves P _ _ _ _ hwalk
        rw [← hnotice, h2]
  constructor
  · intro n hn
    constructor
    · simp [backtrace_handler, hnotice, hsame, hn]
    · simp [signal_calls, call_signal_handler]
  · intro hd
    simp [backtrace_handler, hnotice, hsame, hd]

/-- Witness of C4 (amended): `SIGFPE` with a handler function of the host
recorded; the notice step returns and the handler is called once. -/
theorem C4_handler_forwards_witness :
    ∃ s1, elog_caught_signal five_frames 4 SIGFPE
        { host_chain_state with inside_signal_handler := true } = some (Outcome.returned s1) ∧
      host_chain_state.signal_handlers SIGFPE = pqsigfunc.host 2 ∧
      backtrace_handler five_frames 4 SIGFPE host_chain_state =
        some (Outcome.returned
          (call_signal_handler (pqsigfunc.host 2) SIGFPE
            { s1 with inside_signal_handler := false })) :=
  ⟨_, rfl, rfl, ((C4_handler_forwards five_frames 4 SIGFPE host_chain_state _ rfl).1 2 rfl).1⟩

/-- C6 (as stated, refuted): with an empty error-context chain and the latch
unset, the wrapper handles `SIGSEGV` without any frame dump, and the latch
stays unset. -/
theorem C6_no_dump_on_empty_chain :
    initial_state.already_printed = false ∧
    initial_state.error_context_stack = none ∧
    ∃ s1, backtrace_handler five_frames 1 SIGSEGV initial_state = some (Outcome.returned s1) ∧
      s1.already_printed = false ∧
      dump_count s1.log = 0 ∧
      frame_lines s1.log = [] :=
  ⟨rfl, rfl, _, rfl, rfl, rfl, rfl⟩

/-- What the walk of `walk_once` leaves: the latch set and one more dump. -/
theorem walk_once_summary (P : Platform) (l : List Addr) (p : Ptr) (s : State) (fuel : Nat)
    (hchain : IsChain s p l) (hfuel : l.length < fuel)
    (hin : s.inside_signal_handler = true) (hlatch : s.already_printed = false)
    (hreg : (chain_callbacks s l).count (some CallbackFn.backtrace_callback_function) = 1) :
    ∃ s2, call_context_callbacks P fuel p s = some (Outcome.returned s2) ∧
      s2.already_printed = true ∧ dump_count s2.log = dump_count s.log + 1 := by
  obtain ⟨fs1, fs2, hwalk⟩ := walk_once P l p s fuel hchain hfuel hin hlatch hreg
  refine ⟨_, hwalk, ?_, ?_⟩
  · rw [backtrace_dump_stack_eq]
  · show dump_count ((backtrace_dump_stack P _).log ++ host_events fs2) = _
    rw [dump_count_append, dump_count_dump_stack, dump_count_host_events]
    show dump_count (s.log ++ host_events fs1) + 1 + 0 = _
    rw [dump_count_append, dump_count_host_events]

/-- The wrapper after a walk that returned: the notice is emitted, the flag
is reset, and nothing is dumped or printed any more. -/
theorem handler_after_walk (P : Platform) (fuel sig : Nat) (s s2 : State)
    (hwalk : call_context_callbacks P fuel s.error_context_stack
      { s with inside_signal_handler := true } = some (Outcome.returned s2)) :
    ∃ s1, backtrace_handler P fuel sig s = some (Outcome.returned s1) ∧
      s1.already_printed = s2.already_printed ∧
      s1.inside_signal_handler = false ∧
      dump_count s1.log = dump_count s2.log ∧
      frame_lines s1.log = frame_lines s2.log := by
  by_cases hd : s2.signal_handlers sig = pqsigfunc.SIG_DFL
  · refine ⟨{ s2 with inside_signal_handler := false,
                      log := s2.log ++ [Event.caught_signal sig] }, ?_, rfl, rfl, ?_, ?_⟩
    · simp [backtrace_handler, elog_caught_signal, hwalk, hd]
    · simp [dump_count]
    · simp [frame_lines_append, frame_lines]
  · refine ⟨call_signal_handler (s2.signal_handlers sig) sig
        { s2 with inside_signal_handler := false,
                  log := s2.log ++ [Event.caught_signal sig] }, ?_, rfl, rfl, ?_, ?_⟩
    · simp [backtrace_handler, elog_caught_signal, hwalk, hd]
    · simp [dump_count, call_signal_handler]
    · simp [frame_lines_append, frame_lines, call_signal_handler]

/-- C6 (amended): whatever the threshold `backtrace_level` and the signal,
when the error-context chain is finite and holds the module's callback
exactly once (as `backtrace_register_error_callback` leaves it), an
invocation of the wrapper `backtrace_handler` with the latch unset returns
after exactly one frame dump, with `already_printed` set. -/
theorem C6_signal_dumps_once_when_registered (P : Platform) (s : State) (l : List Addr)
    (fuel sig : Nat)
    (hlatch : s.already_printed = false)
    (hchain : IsChain s s.error_context_stack l) (hfuel : l.length < fuel)
    (hreg : (chain_callbacks s l).count (some CallbackFn.backtrace_callback_function) = 1) :
    ∃ s1, backtrace_handler P fuel sig s = some (Outcome.returned s1) ∧
      s1.already_printed = true ∧
      dump_count s1.log = dump_count s.log + 1 ∧
      s1.inside_signal_handler = false := by
  obtain ⟨s2, hwalk, hap2, hcount2⟩ := walk_once_summary P l s.error_context_stack
    { s with inside_signal_handler := true } fuel
    (IsChain_congr s _ l _ (fun b _ => by cases b <;> rfl) hchain) hfuel rfl hlatch hreg
  obtain ⟨s1, hcall, hap1, hin1, hcount1, _⟩ := handler_after_walk P fuel sig s s2 hwalk
  exact ⟨s1, hcall, by rw [hap1, hap2], by rw [hcount1, hcount2], hin1⟩

/-- Witness of C6 (amended): the module's node registered in front of two
host nodes, `SIGSEGV` arriving with the latch unset. -/
theorem C6_signal_dumps_once_when_registered_witness :
    ∃ s1, backtrace_handler five_frames 4 SIGSEGV registered_state =
        some (Outcome.returned s1) ∧
      s1.already_printed = true ∧
      dump_count s1.log = dump_count registered_state.log + 1 ∧
      s1.inside_signal_handler = false :=
  C6_signal_dumps_once_when_registered five_frames registered_state
    [Addr.backtrace_callback, Addr.host 0, Addr.host 1] 4 SIGSEGV rfl
    ⟨rfl, rfl, rfl, rfl⟩ (by decide) (by decide)

/-- C7 (as stated, refuted): the latch is set, the host has emptied the
error-context chain since, and `SIGINT` arrives: the wrapper does not exit, it
returns after forwarding to the previously recorded handler. -/
theorem C7_latched_without_node_forwards :
    latched_idle_state.already_printed = true ∧
    latched_idle_state.error_context_stack = none ∧
    ∃ s1, backtrace_handler five_frames 1 SIGINT latched_idle_state =
        some (Outcome.returned s1) ∧
      signal_calls s1.log = [Event.signal_call (pqsigfunc.host 1) SIGINT] :=
  ⟨rfl, rfl, _, rfl, rfl⟩

/-- C7 (amended): for every signal, when the wrapper `backtrace_handler` is
invoked while the latch is already set and the finite error-context chain
holds the module's callback (as it does when the chain is as the earlier
signal-path dump found it), the process exits with status 1, a non-zero
status: no frame line is emitted, no dump runs and the previously recorded
handler is not invoked. -/
theorem C7_latched_signal_exits_when_registered (P : Platform) (s : State) (l : List Addr)
    (fuel sig : Nat)
    (hlatch : s.already_printed = true)
    (hchain : IsChain s s.error_context_stack l) (hfuel : l.length < fuel)
    (hreg : some CallbackFn.backtrace_callback_function ∈ chain_callbacks s l) :
    ∃ s1, backtrace_handler P fuel sig s = some (Outcome.exited 1 s1) ∧
      (1 : Int) ≠ 0 ∧
      frame_lines s1.log = frame_lines s.log ∧
      dump_count s1.log = dump_count s.log ∧
      signal_calls s1.log = signal_calls s.log := by
  obtain ⟨fs, hwalk⟩ := walk_latched P l s.error_context_stack
    { s with inside_signal_handler := true } fuel
    (IsChain_congr s _ l _ (fun b _ => by cases b <;> rfl) hchain) hfuel rfl hlatch hreg
  refine ⟨{ s with inside_signal_handler := true, log := s.log ++ host_events fs },
    ?_, by decide, ?_, ?_, ?_⟩
  · simp only [backtrace_handler, elog_caught_signal, hwalk]
  · show frame_lines (s.log ++ host_events fs) = _
    rw [frame_lines_append, frame_lines_host_events, List.append_nil]
  · show dump_count (s.log ++ host_events fs) = _
    rw [dump_count_append, dump_count_host_events, Nat.add_zero]
  · show signal_calls (s.log ++ host_events fs) = _
    rw [signal_calls_append, signal_calls_host_events, List.append_nil]

/-- Witness of C7 (amended): the module's node registered, the latch set,
`SIGSEGV` arriving again. -/
theorem C7_latched_signal_exits_when_registered_witness :
    ∃ s1, backtrace_handler five_frames 4 SIGSEGV latched_registered_state =
        some (Outcome.exited 1 s1) ∧
      (1 : Int) ≠ 0 ∧
      frame_lines s1.log = frame_lines latched_registered_state.log ∧
      dump_count s1.log = dump_count latched_registered_state.log ∧
      signal_calls s1.log = signal_calls latched_registered_state.log :=
  C7_latched_signal_exits_when_registered five_frames latched_registered_state
    [Addr.backtrace_callback, Addr.host 0, Addr.host 1] 4 SIGSEGV rfl
    ⟨rfl, rfl, rfl, rfl⟩ (by decide) (by decide)

/-! ## Hook wrappers -/

/-- Registration returns on a finite chain and leaves the log and the captured
handlers as they were. -/
theorem register_returns (s : State) (l : List Addr) (fuel : Nat)
    (hchain : IsChain s s.error_context_stack l) (hfuel : l.length < fuel) :
    ∃ s1, backtrace_register_error_callback fuel s = some s1 ∧
      s1.log = s.log ∧
      s1.prev_executor_run_hook = s.prev_executor_run_hook ∧
      s1.prev_utility_hook = s.prev_utility_hook ∧
      s1.prev_post_parse_analyze_hook = s.prev_post_parse_analyze_hook := by
  by_cases hmem : Addr.backtrace_callback ∈ l
  · exact ⟨s, register_present s l fuel hchain hfuel hmem, rfl, rfl, rfl, rfl⟩
  · exact ⟨inserted s, (register_absent s l fuel hchain hfuel hmem).1, rfl, rfl, rfl, rfl⟩

/-- C8 (as stated, refuted): with no previously captured handler,
`backtrace_post_parse_analyze_hook` registers the callback and returns without
any delegated call. -/
theorem C8_post_parse_without_prev_no_call :
    initial_state.prev_post_parse_analyze_hook = none ∧
    ∃ s1, backtrace_post_parse_analyze_hook 1 sample_parse_args initial_state = some s1 ∧
      s1.error_context_stack = some Addr.backtrace_callback ∧
      delegated_calls s1.log = [] :=
  ⟨rfl, _, rfl, rfl, rfl⟩

/-- C8 (amended): on a finite error-context chain each of the three wrappers
first runs `backtrace_register_error_callback`, whatever the arguments, and
its result is the state registration leaves followed by its delegated call,
made with the arguments unchanged as the last action: for
`backtrace_executor_run_hook` and `backtrace_utility_hook` exactly one call, to
the captured handler if there is one and to `standard_ExecutorRun` or
`standard_ProcessUtility` otherwise; for `backtrace_post_parse_analyze_hook`
exactly one call to the captured handler if there is one, and no call at all
otherwise. -/
theorem C8_wrappers_delegate (s : State) (l : List Addr) (fuel : Nat)
    (xa : ExecutorRunArgs) (ua : ProcessUtilityArgs) (pa : PostParseArgs)
    (hchain : IsChain s s.error_context_stack l) (hfuel : l.length < fuel) :
    ∃ s1, backtrace_register_error_callback fuel s = some s1 ∧ s1.log = s.log ∧
      (∀ f, s.prev_executor_run_hook = some f →
        backtrace_executor_run_hook fuel xa s =
          some { s1 with log := s1.log ++ [Event.ExecutorRun (Callee.prev f) xa] }) ∧
      (s.prev_executor_run_hook = none →
        backtrace_executor_run_hook fuel xa s =
          some { s1 with log := s1.log ++ [Event.ExecutorRun Callee.standard xa] }) ∧
      (∀ f, s.prev_utility_hook = some f →
        backtrace_utility_hook fuel ua s =
          some { s1 with log := s1.log ++ [Event.ProcessUtility (Callee.prev f) ua] }) ∧
      (s.prev_utility_hook = none →
        backtrace_utility_hook fuel ua s =
          some { s1 with log := s1.log ++ [Event.ProcessUtility Callee.standard ua] }) ∧
      (∀ f, s.prev_post_parse_analyze_hook = some f →
        backtrace_post_parse_analyze_hook fuel pa s =
          some { s1 with log := s1.log ++ [Event.post_parse_analyze (Callee.prev f) pa] }) ∧
      (s.prev_post_parse_analyze_hook = none →
        backtrace_post_parse_analyze_hook fuel pa s = some s1) := by
  obtain ⟨s1, hreg, hlog, hx, hu, hp⟩ := register_returns s l fuel hchain hfuel
  refine ⟨s1, hreg, hlog, ?_, ?_, ?_, ?_, ?_, ?_⟩
  · intro f hf
    rw [← hx] at hf
    simp [backtrace_executor_run_hook, hreg, hf]
  · intro hf
    rw [← hx] at hf
    simp [backtrace_executor_run_hook, hreg, hf]
  · intro f hf
    rw [← hu] at hf
    simp [backtrace_utility_hook, hreg, hf]
  · intro hf
    rw [← hu] at hf
    simp [backtrace_utility_hook, hreg, hf]
  · intro f hf
    rw [← hp] at hf
    simp [backtrace_post_parse_analyze_hook, hreg, hf]
  · intro hf
    rw [← hp] at hf
    simp [backtrace_post_parse_analyze_hook, hreg, hf]

/-- Witness of C8 (amended): on a host chain of two nodes, with no captured
handler, the executor wrapper registers the node and calls
`standard_ExecutorRun` once with its arguments. -/
theorem C8_wrappers_delegate_witness :
    ∃ s1, backtrace_register_error_callback 4 host_chain_state = some s1 ∧
      backtrace_executor_run_hook 4 sample_run_args host_chain_state =
        some { s1 with log := s1.log ++ [Event.ExecutorRun Callee.standard sample_run_args] } := by
  obtain ⟨s1, h1, _, _, h2, _⟩ := C8_wrappers_delegate host_chain_state
    [Addr.host 0, Addr.host 1] 4 sample_run_args sample_utility_args sample_parse_args
    ⟨rfl, rfl, rfl⟩ (by decide)
  exact ⟨s1, h1, h2 rfl⟩

/-! ## Load and unload -/

/-- C5: whatever the hooks and the installed signal handlers before loading,
`_PG_init` followed at once by `_PG_fini` leaves the three hooks and the
handler of every signal, the four intercepted ones included, equal to what
they were. -/
theorem C5_init_fini_restores (s : State) :
    (_PG_fini (_PG_init s)).ExecutorRun_hook = s.ExecutorRun_hook ∧
    (_PG_fini (_PG_init s)).ProcessUtility_hook = s.ProcessUtility_hook ∧
    (_PG_fini (_PG_init s)).post_parse_analyze_hook = s.post_parse_analyze_hook ∧
    (_PG_fini (_PG_init s)).installed_handlers SIGSEGV = s.installed_handlers SIGSEGV ∧
    (_PG_fini (_PG_init s)).installed_handlers SIGBUS = s.installed_handlers SIGBUS ∧
    (_PG_fini (_PG_init s)).installed_handlers SIGFPE = s.installed_handlers SIGFPE ∧
    (_PG_fini (_PG_init s)).installed_handlers SIGINT = s.installed_handlers SIGINT ∧
    (_PG_fini (_PG_init s)).installed_handlers = s.installed_handlers ∧
    (∀ sig ∈ intercepted_signals,
      (_PG_init s).installed_handlers sig = pqsigfunc.backtrace_handler ∧
      (_PG_init s).signal_handlers sig = s.installed_handlers sig) := by
  have hall : ∀ sig, (_PG_fini (_PG_init s)).installed_handlers sig = s.installed_handlers sig := by
    intro sig
    by_cases h1 : sig = SIGSEGV
    · subst h1; rfl
    by_cases h2 : sig = SIGBUS
    · subst h2; rfl
    by_cases h3 : sig = SIGFPE
    · subst h3; rfl
    by_cases h4 : sig = SIGINT
    · subst h4; rfl
    simp [_PG_fini, _PG_init, install_handler, pqsignal, DefineCustomEnumVariable,
      Function.update_apply, h1, h2, h3, h4]
  refine ⟨?_, ?_, ?_, hall SIGSEGV, hall SIGBUS, hall SIGFPE, hall SIGINT, funext hall, ?_⟩
  · simp [_PG_fini, _PG_init, install_handler, pqsignal, DefineCustomEnumVariable]
  · simp [_PG_fini, _PG_init, install_handler, pqsignal, DefineCustomEnumVariable]
  · simp [_PG_fini, _PG_init, install_handler, pqsignal, DefineCustomEnumVariable]
  · intro sig hsig
    simp only [intercepted_signals, List.mem_cons, List.mem_singleton, List.not_mem_nil,
      or_false] at hsig
    rcases hsig with h | h | h | h <;> subst h <;> exact ⟨rfl, rfl⟩

/-! ## Configuration table -/

theorem lookup_absent (es : List config_enum_entry) (value : String)
    (h : ∀ e ∈ es, same_name value e.name = false) :
    config_enum_lookup_by_name es value = none := by
  induction es with
  | nil => rfl
  | cons e es ih =>
    have he := h e (List.mem_cons_self e es)
    simp only [config_enum_lookup_by_name, he]
    exact ih (fun x hx => h x (List.mem_cons_of_mem e hx))

/-- C10: in `backtrace_level_options` the deprecated name "debug" and the
name "debug2" both resolve to `DEBUG2`, so setting the threshold through
either name gives the same state, and the callback then behaves the same for
every severity of the error being reported; a name that matches no entry of
the table resolves to no level, and the setting is rejected. -/
theorem C10_debug_alias (P : Platform) (s : State) :
    config_enum_lookup_by_name backtrace_level_options "debug" = some DEBUG2 ∧
    config_enum_lookup_by_name backtrace_level_options "debug2" = some DEBUG2 ∧
    set_backtrace_level "debug" s = some { s with backtrace_level := DEBUG2 } ∧
    set_backtrace_level "debug2" s = some { s with backtrace_level := DEBUG2 } ∧
    (∀ s1 s2, set_backtrace_level "debug" s = some s1 →
      set_backtrace_level "debug2" s = some s2 →
      backtrace_callback_function P s1 = backtrace_callback_function P s2 ∧
      dumps_of_call P s1 = dumps_of_call P s2) ∧
    (∀ name : String, (∀ e ∈ backtrace_level_options, same_name name e.name = false) →
      config_enum_lookup_by_name backtrace_level_options name = none ∧
      set_backtrace_level name s = none) := by
  have h1 : config_enum_lookup_by_name backtrace_level_options "debug" = some DEBUG2 := by
    decide
  have h2 : config_enum_lookup_by_name backtrace_level_options "debug2" = some DEBUG2 := by
    decide
  have h3 : set_backtrace_level "debug" s = some { s with backtrace_level := DEBUG2 } := by
    simp only [set_backtrace_level, h1]
  have h4 : set_backtrace_level "debug2" s = some { s with backtrace_level := DEBUG2 } := by
    simp only [set_backtrace_level, h2]
  refine ⟨h1, h2, h3, h4, ?_, ?_⟩
  · intro s1 s2 e1 e2
    rw [h3] at e1
    rw [h4] at e2
    cases e1
    cases e2
    exact ⟨rfl, rfl⟩
  · intro name hname
    have h := lookup_absent backtrace_level_options name hname
    exact ⟨h, by simp only [set_backtrace_level, h]⟩

/-- Witness of C10: the name "verbose" matches no entry and resolves to no
level. -/
theorem C10_debug_alias_witness :
    (∀ e ∈ backtrace_level_options, same_name "verbose" e.name = false) ∧
    config_enum_lookup_by_name backtrace_level_options "verbose" = none ∧
    set_backtrace_level "verbose" initial_state = none :=
  ⟨by decide, (C10_debug_alias five_frames initial_state).2.2.2.2.2 "verbose" (by decide)⟩

end PgBacktrace
